import Mathlib

/-!
# Golang-with-Habib-Bhai: closures, function values and multi-return functions

A shallow embedding of three of the teaching programs of the repository:

* `[Golang] 011 - Function with Return Values and Types/main.go`  (namespace `ReturnValuesDemo`)
* `[Golang] 023 - Parameter Vs Argument | First Order Function Vs Higher Order Function/main.go`
  (namespace `HigherOrderDemo`)
* `[Golang] 026 - Closure/main.go`  (namespace `ClosureDemo`)

Go's `int` is modelled as `Int` with every arithmetic result reduced into the
64-bit two's-complement range by `wrapInt` (the width of `int` on amd64/arm64).
Variables captured by a closure live in an explicit store, one fresh cell per
activation of the enclosing function; standard output is a list of lines.
-/

/-! ## Go `int` arithmetic -/

/-- Smallest value of a 64-bit Go `int`. -/
def minInt : Int := -(2 ^ 63)

/-- Largest value of a 64-bit Go `int`. -/
def maxInt : Int := 2 ^ 63 - 1

/-- Two's-complement reduction of a mathematical integer into the range of a
64-bit Go `int`: the result every Go `int` operation delivers on overflow. -/
def wrapInt (x : Int) : Int := (x + 2 ^ 63) % 2 ^ 64 - 2 ^ 63

/-- Go `x + y` on `int`. -/
def goAdd (x y : Int) : Int := wrapInt (x + y)

/-- Go `x - y` on `int`. -/
def goSub (x y : Int) : Int := wrapInt (x - y)

/-- Go `x * y` on `int`. -/
def goMul (x y : Int) : Int := wrapInt (x * y)

/-- Text produced by `fmt` for an `int` under `%d` and by `fmt.Println`: the
decimal representation, with a leading minus sign for negative values. -/
def fmtInt (x : Int) : String := toString x

/-- Run-time failures of the Go programs modelled here. -/
inductive Panic where
  /-- calling a nil function value
  (`invalid memory address or nil pointer dereference`) -/
  | nilFuncCall
  deriving DecidableEq, Repr

/-! ## `[Golang] 011 - Function with Return Values and Types` -/

namespace ReturnValuesDemo

/-- Source: `func getNumbers(number1 int, number2 int) (int, int)`. -/
def getNumbers (number1 number2 : Int) : Int × Int :=
  let sum := goAdd number1 number2
  let mul := goMul number1 number2
  (sum, mul)

/-- Source: `func main()`; the two lines it prints. -/
def main : List String :=
  let a : Int := 10
  let b : Int := 20
  let (p, q) := getNumbers a b
  [fmtInt p, fmtInt q]

end ReturnValuesDemo

/-! ## `[Golang] 023 - Parameter Vs Argument | First Order Function Vs Higher Order Function` -/

namespace HigherOrderDemo

/-- A Go value of type `func(int, int) int`; `none` is the nil function value. -/
abbrev BinOp := Option (Int → Int → Int)

/-- Calling a value of type `func(int, int) int`: a nil function panics. -/
def callBinOp (f : BinOp) (x y : Int) : Except Panic Int :=
  match f with
  | some g => .ok (g x y)
  | none => .error Panic.nilFuncCall

/-- Source: `func add(x int, y int) int`. -/
def add (x y : Int) : Int := goAdd x y

/-- Source: `func greet(name string) string`. -/
def greet (name : String) : String := "Hello, " ++ name

/-- Source: the function expression `subtract := func(a, b int) int` of `main`. -/
def subtract (a b : Int) : Int := goSub a b

/-- Source: the function expression `multiply := func(a, b int) int` of `main`. -/
def multiply (a b : Int) : Int := goMul a b

/-- Source: `func processOperation(x int, y int, operation func(a int, b int) int) int`. -/
def processOperation (x y : Int) (operation : BinOp) : Except Panic Int :=
  callBinOp operation x y

/-- Store of the variables captured by closures: one cell per activation of
`createMultiplier`, holding that activation's parameter `factor`. -/
structure Env where
  /-- contents of the cells -/
  vars : Nat → Int
  /-- address of the next cell to be allocated -/
  next : Nat

/-- An empty store. -/
def Env.empty : Env := { vars := fun _ => 0, next := 0 }

/-- The closure returned by `createMultiplier`: the function literal
`func(x int) int` together with the cell of the `factor` it captured. -/
structure Multiplier where
  /-- address of the captured variable `factor` -/
  factor : Nat
  deriving DecidableEq, Repr

/-- Source: `func createMultiplier(factor int) func(int) int`.  The activation
gets a fresh cell for its parameter `factor` and returns the closure over it. -/
def createMultiplier (factor : Int) (env : Env) : Multiplier × Env :=
  ({ factor := env.next },
   { vars := Function.update env.vars env.next factor, next := env.next + 1 })

/-- Source: the body `return x * factor` of the function literal returned by
`createMultiplier`; it reads the captured cell and writes nothing. -/
def Multiplier.call (m : Multiplier) (x : Int) (env : Env) : Int × Env :=
  (goMul x (env.vars m.factor), env)

/-- Source: `func fetchData(id int, callback func(data string))`.  The callback
is any Go function value acting on a caller state `σ` (`none` is nil). -/
def fetchData {σ : Type} (id : Int) (callback : Option (String → σ → Except Panic σ))
    (s : σ) : Except Panic σ :=
  let data := "Data for ID " ++ fmtInt id
  match callback with
  | some cb => cb data s
  | none => .error Panic.nilFuncCall

/-- A callback that appends the string it receives to a log of its invocations. -/
def recorder (data : String) (log : List String) : Except Panic (List String) :=
  .ok (log ++ [data])

/-- Source: the map literal `operations := map[string]func(int, int) int{...}` of `main`. -/
def operations : List (String × BinOp) :=
  [("add", some add), ("subtract", some subtract), ("multiply", some multiply)]

/-- Go map indexing `m[key]`: the stored value, or the zero value of the element
type (the nil function) when the key is absent. -/
def mapIndex (m : List (String × BinOp)) (key : String) : BinOp :=
  match m.lookup key with
  | some f => f
  | none => none

/-- Source: the expression `operations[name](a, b)` of `main`
(lines 133 and 134): index the map, then call the result. -/
def dispatch (name : String) (x y : Int) : Except Panic Int :=
  callBinOp (mapIndex operations name) x y

end HigherOrderDemo

/-! ## `[Golang] 026 - Closure` -/

namespace ClosureDemo

/-- Source: `const a = 10`. -/
def a : Int := 10

/-- Program state: the package variable `p`, the store of the `money`
variables captured by closures, and standard output. -/
structure State where
  /-- Source: `var p = 100` (the current value of the package variable) -/
  p : Int
  /-- contents of the `money` cells, one per activation of `outer` -/
  cells : Nat → Int
  /-- address of the next cell to be allocated -/
  next : Nat
  /-- lines written to standard output so far -/
  out : List String

/-- State at program start: `p` initialised to 100, nothing allocated or printed. -/
def initial : State := { p := 100, cells := fun _ => 0, next := 0, out := [] }

/-- Effect of `fmt.Println` with one argument: one more line of output. -/
def println (line : String) (st : State) : State :=
  { st with out := st.out ++ [line] }

/-- The closure `show` returned by `outer`: the function literal together with
the cell of the variable `money` it captured. -/
structure ShowClosure where
  /-- address of the captured variable `money` -/
  money : Nat
  deriving DecidableEq, Repr

/-- Source: `func outer() func()`.  The activation allocates a fresh `money`
cell holding 100, prints `age`, and returns the closure over that cell. -/
def outer (st : State) : ShowClosure × State :=
  let age : Int := 30
  let money := st.next
  let st1 : State :=
    { st with cells := Function.update st.cells money 100, next := st.next + 1 }
  let st2 := println (fmtInt age) st1
  ({ money := money }, st2)

/-- Value assigned by `money = money + a + p` when the closure runs in `st`. -/
def ShowClosure.newMoney (c : ShowClosure) (st : State) : Int :=
  goAdd (goAdd (st.cells c.money) a) st.p

/-- Source: the body of the function literal `show` of `outer`:
`money = money + a + p` followed by `fmt.Println(money)`. -/
def ShowClosure.call (c : ShowClosure) (st : State) : State :=
  let st1 : State :=
    { st with cells := Function.update st.cells c.money (c.newMoney st) }
  println (fmtInt (st1.cells c.money)) st1

/-- Source: `func call()`. -/
def call (st : State) : State :=
  let (incr1, s1) := outer st
  let s2 := incr1.call s1
  let s3 := incr1.call s2
  let (incr2, s4) := outer s3
  let s5 := incr2.call s4
  incr2.call s5

/-- Source: `func init()`. -/
def init (st : State) : State := println "_______Bank_________" st

/-- Source: `func main()`. -/
def main (st : State) : State := call st

/-- A sequence of closure invocations, carried out from left to right. -/
def runSchedule (sched : List ShowClosure) (st : State) : State :=
  sched.foldl (fun s c => c.call s) st

/-- The invocations of a schedule with the value each one yields (assigns to
its `money` and prints), in order. -/
def trace : List ShowClosure → State → List (ShowClosure × Int)
  | [], _ => []
  | c :: rest, st => (c, c.newMoney st) :: trace rest (c.call st)

/-- The values one closure yields in a trace, in order. -/
def yieldsOf (c : ShowClosure) (tr : List (ShowClosure × Int)) : List Int :=
  (tr.filter (fun e => decide (e.1 = c))).map Prod.snd

/-- Two closures obtained from two separate calls of `outer`, the first one
invoked `k` times before the second call (`call` does this with `k = 2`),
together with the state after the second call. -/
def twoClosures (k : Nat) (st : State) : ShowClosure × ShowClosure × State :=
  let r1 := outer st
  let s := r1.1.call^[k] r1.2
  let r2 := outer s
  (r1.1, r2.1, r2.2)

/-- An interleaving of invocations of two closures: `true` invokes the first,
`false` the second. -/
def interleave (incr1 incr2 : ShowClosure) (sched : List Bool) : List ShowClosure :=
  sched.map (fun b => if b then incr1 else incr2)

end ClosureDemo

/-! ## Facts about Go `int` arithmetic -/

theorem wrapInt_eq (x : Int) :
    wrapInt x = (x + 9223372036854775808) % 18446744073709551616 - 9223372036854775808 := by
  unfold wrapInt; norm_num

/-- A value already in the range of `int` is left alone. -/
theorem wrapInt_of_inRange (x : Int) (hlo : minInt ≤ x) (hhi : x ≤ maxInt) : wrapInt x = x := by
  have h1 : minInt = -9223372036854775808 := by unfold minInt; norm_num
  have h2 : maxInt = 9223372036854775807 := by unfold maxInt; norm_num
  rw [h1] at hlo
  rw [h2] at hhi
  rw [wrapInt_eq]
  omega

/-- Every result of `wrapInt` is a value of type `int`. -/
theorem wrapInt_inRange (x : Int) : minInt ≤ wrapInt x ∧ wrapInt x ≤ maxInt := by
  have h1 : minInt = -9223372036854775808 := by unfold minInt; norm_num
  have h2 : maxInt = 9223372036854775807 := by unfold maxInt; norm_num
  rw [h1, h2, wrapInt_eq]
  omega

/-- Reducing an operand early does not change a wrapped sum. -/
theorem wrapInt_wrapInt_add (x y : Int) : wrapInt (wrapInt x + y) = wrapInt (x + y) := by
  simp only [wrapInt_eq]
  omega

/-! ## `getNumbers` -/

/-- C10: for all integers `number1` and `number2`, in Go's wrapping `int`
arithmetic, `getNumbers` returns the sum first and the product second, it is
symmetric in its arguments, and `getNumbers(10, 20) = (30, 200)`. -/
theorem getNumbers_sum_product (number1 number2 : Int) :
    ReturnValuesDemo.getNumbers number1 number2
        = (wrapInt (number1 + number2), wrapInt (number1 * number2))
      ∧ ReturnValuesDemo.getNumbers number1 number2
        = ReturnValuesDemo.getNumbers number2 number1
      ∧ ReturnValuesDemo.getNumbers 10 20 = (30, 200) := by
  refine ⟨rfl, ?_, by decide⟩
  simp only [ReturnValuesDemo.getNumbers, goAdd, goMul, add_comm number1 number2,
    mul_comm number1 number2]

/-! ## The operations map and the higher-order functions -/

namespace HigherOrderDemo

theorem dispatch_add (x y : Int) : dispatch "add" x y = .ok (goAdd x y) := by
  simp [dispatch, mapIndex, operations, List.lookup, callBinOp, add]

theorem dispatch_subtract (x y : Int) : dispatch "subtract" x y = .ok (goSub x y) := by
  simp [dispatch, mapIndex, operations, List.lookup, callBinOp, subtract]

theorem dispatch_multiply (x y : Int) : dispatch "multiply" x y = .ok (goMul x y) := by
  simp [dispatch, mapIndex, operations, List.lookup, callBinOp, multiply]

/-- A name that is not a key of `operations` indexes to the nil function. -/
theorem mapIndex_absent (name : String)
    (h : name ∉ operations.map Prod.fst) : mapIndex operations name = none := by
  simp [operations] at h
  obtain ⟨h1, h2, h3⟩ := h
  have e1 : (name == "add") = false := by simp [h1]
  have e2 : (name == "subtract") = false := by simp [h2]
  have e3 : (name == "multiply") = false := by simp [h3]
  simp only [mapIndex, operations, List.lookup, e1, e2, e3]

/-- What a registered name indexes to. -/
theorem mapIndex_registered (name : String) (op : Int → Int → Int)
    (h : (name, some op) ∈ operations) : mapIndex operations name = some op := by
  simp only [operations, List.mem_cons, Prod.mk.injEq, Option.some.injEq,
    List.mem_singleton, List.not_mem_nil, or_false] at h
  rcases h with ⟨rfl, rfl⟩ | ⟨rfl, rfl⟩ | ⟨rfl, rfl⟩ <;>
    simp [mapIndex, operations, List.lookup]

end HigherOrderDemo

/-- C3 (as amended): for every name that is not a key of the operations map
(keys "add", "subtract", "multiply") and all integers, indexing the map does not
fail: it yields the zero value of the element type, the nil function.  Calling
that result then panics with the nil-function-call failure, the very failure of
calling a nil function that no lookup produced, so `operations[name](a, b)`
returns no integer.  In particular this holds for the name "nonexistent" with
arguments 1 and 2. -/
theorem dispatch_absent_fails (name : String) (x y : Int)
    (h : name ∉ HigherOrderDemo.operations.map Prod.fst) :
    HigherOrderDemo.mapIndex HigherOrderDemo.operations name = none
      ∧ HigherOrderDemo.dispatch name x y = HigherOrderDemo.processOperation x y none
      ∧ HigherOrderDemo.dispatch name x y = .error Panic.nilFuncCall
      ∧ (∀ r : Int, HigherOrderDemo.dispatch name x y ≠ .ok r)
      ∧ HigherOrderDemo.operations.map Prod.fst = ["add", "subtract", "multiply"]
      ∧ HigherOrderDemo.mapIndex HigherOrderDemo.operations "nonexistent" = none
      ∧ HigherOrderDemo.dispatch "nonexistent" 1 2 = .error Panic.nilFuncCall := by
  have hm := HigherOrderDemo.mapIndex_absent name h
  have hd : HigherOrderDemo.dispatch name x y = .error Panic.nilFuncCall := by
    simp [HigherOrderDemo.dispatch, hm, HigherOrderDemo.callBinOp]
  refine ⟨hm, ?_, hd, ?_, rfl, rfl, rfl⟩
  · rw [hd]
    rfl
  · intro r hr
    rw [hd] at hr
    cases hr

theorem dispatch_absent_fails_witness :
    "divide" ∉ HigherOrderDemo.operations.map Prod.fst
      ∧ HigherOrderDemo.mapIndex HigherOrderDemo.operations "divide" = none
      ∧ HigherOrderDemo.dispatch "divide" 7 2 = .error Panic.nilFuncCall :=
  ⟨by decide, (dispatch_absent_fails "divide" 7 2 (by decide)).1,
   (dispatch_absent_fails "divide" 7 2 (by decide)).2.2.1⟩

/-- C3 fails as stated: for the absent name "nonexistent" the lookup itself does
not fail but silently yields the default of the element type, the nil function,
and the failure of `operations["nonexistent"](1, 2)` is not one of the lookup:
it is the failure of calling a nil function, the same one `processOperation`
meets when handed nil with no map involved. -/
theorem dispatch_absent_lookup_defaults :
    HigherOrderDemo.mapIndex HigherOrderDemo.operations "nonexistent" = none
      ∧ HigherOrderDemo.dispatch "nonexistent" 1 2
          = HigherOrderDemo.callBinOp none 1 2
      ∧ HigherOrderDemo.dispatch "nonexistent" 1 2
          = HigherOrderDemo.processOperation 1 2 none
      ∧ HigherOrderDemo.processOperation 1 2 none = .error Panic.nilFuncCall :=
  ⟨rfl, rfl, rfl, rfl⟩

/-- C4: for every name registered in the operations map and all integers,
dispatching by name returns the registered operation applied to the arguments:
"add" gives Go's `a + b`, "subtract" Go's `a - b`, "multiply" Go's `a * b`
(the mathematical result whenever that is representable as an `int`), and
dispatching ("add", 5, 3) returns 8. -/
theorem dispatch_registered (name : String) (op : Int → Int → Int) (x y : Int)
    (h : (name, some op) ∈ HigherOrderDemo.operations) :
    HigherOrderDemo.dispatch name x y = .ok (op x y)
      ∧ HigherOrderDemo.dispatch "add" x y = .ok (goAdd x y)
      ∧ HigherOrderDemo.dispatch "subtract" x y = .ok (goSub x y)
      ∧ HigherOrderDemo.dispatch "multiply" x y = .ok (goMul x y)
      ∧ (minInt ≤ x + y → x + y ≤ maxInt → HigherOrderDemo.dispatch "add" x y = .ok (x + y))
      ∧ (minInt ≤ x - y → x - y ≤ maxInt →
          HigherOrderDemo.dispatch "subtract" x y = .ok (x - y))
      ∧ (minInt ≤ x * y → x * y ≤ maxInt →
          HigherOrderDemo.dispatch "multiply" x y = .ok (x * y))
      ∧ HigherOrderDemo.dispatch "add" 5 3 = .ok 8 := by
  refine ⟨?_, HigherOrderDemo.dispatch_add x y, HigherOrderDemo.dispatch_subtract x y,
    HigherOrderDemo.dispatch_multiply x y, ?_, ?_, ?_, rfl⟩
  · simp [HigherOrderDemo.dispatch, HigherOrderDemo.mapIndex_registered name op h,
      HigherOrderDemo.callBinOp]
  · intro hlo hhi
    rw [HigherOrderDemo.dispatch_add, goAdd, wrapInt_of_inRange _ hlo hhi]
  · intro hlo hhi
    rw [HigherOrderDemo.dispatch_subtract, goSub, wrapInt_of_inRange _ hlo hhi]
  · intro hlo hhi
    rw [HigherOrderDemo.dispatch_multiply, goMul, wrapInt_of_inRange _ hlo hhi]

theorem dispatch_registered_witness :
    ("multiply", some HigherOrderDemo.multiply) ∈ HigherOrderDemo.operations
      ∧ HigherOrderDemo.dispatch "multiply" 6 7 = .ok (HigherOrderDemo.multiply 6 7)
      ∧ HigherOrderDemo.multiply 6 7 = 42
      ∧ minInt ≤ (6 : Int) * 7 ∧ (6 : Int) * 7 ≤ maxInt
      ∧ HigherOrderDemo.dispatch "multiply" 6 7 = .ok (6 * 7) :=
  ⟨by simp [HigherOrderDemo.operations],
   (dispatch_registered "multiply" HigherOrderDemo.multiply 6 7
      (by simp [HigherOrderDemo.operations])).1,
   by decide, by decide, by decide,
   (dispatch_registered "multiply" HigherOrderDemo.multiply 6 7
      (by simp [HigherOrderDemo.operations])).2.2.2.2.2.2.1 (by decide) (by decide)⟩

/-- C5: for all integers `x`, `y` and every pure binary operation `op`, the
higher-order applier returns `op(x, y)`; in particular
`processOperation(5, 3, multiply) = multiply(5, 3) = 15`. -/
theorem processOperation_applies (x y : Int) (op : Int → Int → Int) :
    HigherOrderDemo.processOperation x y (some op) = .ok (op x y)
      ∧ HigherOrderDemo.processOperation 5 3 (some HigherOrderDemo.multiply)
          = .ok (HigherOrderDemo.multiply 5 3)
      ∧ HigherOrderDemo.multiply 5 3 = 15 :=
  ⟨rfl, rfl, by decide⟩

/-- C9: for every registered name and all integers `x`, `y`, passing
`operations[name]` to `processOperation` agrees with calling `operations[name]`
directly, and both return the registered operation applied to `(x, y)`; in
particular `processOperation(10, 2, operations["subtract"]) = 10 - 2 = 8`. -/
theorem processOperation_dispatch_agree (name : String) (op : Int → Int → Int) (x y : Int)
    (h : (name, some op) ∈ HigherOrderDemo.operations) :
    HigherOrderDemo.processOperation x y
          (HigherOrderDemo.mapIndex HigherOrderDemo.operations name)
        = HigherOrderDemo.dispatch name x y
      ∧ HigherOrderDemo.processOperation x y
          (HigherOrderDemo.mapIndex HigherOrderDemo.operations name) = .ok (op x y)
      ∧ HigherOrderDemo.processOperation 10 2
          (HigherOrderDemo.mapIndex HigherOrderDemo.operations "subtract") = .ok (10 - 2)
      ∧ HigherOrderDemo.processOperation 10 2
          (HigherOrderDemo.mapIndex HigherOrderDemo.operations "subtract") = .ok 8 := by
  refine ⟨rfl, ?_, rfl, rfl⟩
  rw [HigherOrderDemo.mapIndex_registered name op h]
  rfl

theorem processOperation_dispatch_agree_witness :
    ("subtract", some HigherOrderDemo.subtract) ∈ HigherOrderDemo.operations
      ∧ HigherOrderDemo.processOperation 10 2
          (HigherOrderDemo.mapIndex HigherOrderDemo.operations "subtract")
        = HigherOrderDemo.dispatch "subtract" 10 2
      ∧ HigherOrderDemo.dispatch "subtract" 10 2 = .ok 8 :=
  ⟨by simp [HigherOrderDemo.operations],
   (processOperation_dispatch_agree "subtract" HigherOrderDemo.subtract 10 2
      (by simp [HigherOrderDemo.operations])).1,
   rfl⟩

/-- C6: for all integers `factor` and `x`, `createMultiplier(factor)(x)` is Go's
`x * factor` (the mathematical product whenever that is representable as an
`int`), and closures do not interfere: after `createMultiplier(f1)`, calling
`createMultiplier(f2)` and invoking its result on any `y` leaves the value the
first closure returns on `x` unchanged, and the second closure returns Go's
`y * f2`; in particular `createMultiplier(2)(7) = 14` and
`createMultiplier(3)(7) = 21`. -/
theorem createMultiplier_call (env : HigherOrderDemo.Env) (f1 f2 x y : Int) :
    ((HigherOrderDemo.createMultiplier f1 env).1.call x
        (HigherOrderDemo.createMultiplier f1 env).2).1 = goMul x f1
      ∧ (minInt ≤ x * f1 → x * f1 ≤ maxInt →
          ((HigherOrderDemo.createMultiplier f1 env).1.call x
            (HigherOrderDemo.createMultiplier f1 env).2).1 = x * f1)
      ∧ ((HigherOrderDemo.createMultiplier f1 env).1.call x
          (HigherOrderDemo.createMultiplier f2
            (HigherOrderDemo.createMultiplier f1 env).2).2).1 = goMul x f1
      ∧ ((HigherOrderDemo.createMultiplier f1 env).1.call x
          ((HigherOrderDemo.createMultiplier f2
              (HigherOrderDemo.createMultiplier f1 env).2).1.call y
            (HigherOrderDemo.createMultiplier f2
              (HigherOrderDemo.createMultiplier f1 env).2).2).2).1 = goMul x f1
      ∧ ((HigherOrderDemo.createMultiplier f2
              (HigherOrderDemo.createMultiplier f1 env).2).1.call y
            (HigherOrderDemo.createMultiplier f2
              (HigherOrderDemo.createMultiplier f1 env).2).2).1 = goMul y f2
      ∧ ((HigherOrderDemo.createMultiplier 2 env).1.call 7
          (HigherOrderDemo.createMultiplier 3
            (HigherOrderDemo.createMultiplier 2 env).2).2).1 = 14
      ∧ ((HigherOrderDemo.createMultiplier 3
            (HigherOrderDemo.createMultiplier 2 env).2).1.call 7
          (HigherOrderDemo.createMultiplier 3
            (HigherOrderDemo.createMultiplier 2 env).2).2).1 = 21 := by
  have hne : env.next ≠ env.next + 1 := by omega
  refine ⟨?_, ?_, ?_, ?_, ?_, ?_, ?_⟩
  · simp [HigherOrderDemo.createMultiplier, HigherOrderDemo.Multiplier.call]
  · intro hlo hhi
    simp [HigherOrderDemo.createMultiplier, HigherOrderDemo.Multiplier.call, goMul,
      wrapInt_of_inRange _ hlo hhi]
  · simp [HigherOrderDemo.createMultiplier, HigherOrderDemo.Multiplier.call,
      Function.update_noteq hne]
  · simp [HigherOrderDemo.createMultiplier, HigherOrderDemo.Multiplier.call,
      Function.update_noteq hne]
  · simp [HigherOrderDemo.createMultiplier, HigherOrderDemo.Multiplier.call]
  · simp [HigherOrderDemo.createMultiplier, HigherOrderDemo.Multiplier.call,
      Function.update_noteq hne]
    decide
  · simp [HigherOrderDemo.createMultiplier, HigherOrderDemo.Multiplier.call]
    decide

theorem createMultiplier_call_witness :
    minInt ≤ (7 : Int) * 2 ∧ (7 : Int) * 2 ≤ maxInt
      ∧ ((HigherOrderDemo.createMultiplier 2 HigherOrderDemo.Env.empty).1.call 7
          (HigherOrderDemo.createMultiplier 2 HigherOrderDemo.Env.empty).2).1 = 7 * 2 :=
  ⟨by decide, by decide,
   (createMultiplier_call HigherOrderDemo.Env.empty 2 3 7 7).2.1 (by decide) (by decide)⟩

/-- C7: for every integer `id` and every callback, `fetchData(id, cb)` is
exactly one call of `cb`, made before `fetchData` returns, with the string
"Data for ID " followed by the decimal representation of `id`: its whole effect
is that of `cb` on that string, and a callback that logs its invocations
has logged exactly that one string when `fetchData` returns; in particular
`fetchData(42, cb)` calls `cb` once with "Data for ID 42". -/
theorem fetchData_invokes_once {σ : Type} (id : Int) (cb : String → σ → Except Panic σ)
    (s : σ) (log : List String) :
    HigherOrderDemo.fetchData id (some cb) s = cb ("Data for ID " ++ fmtInt id) s
      ∧ HigherOrderDemo.fetchData id (some HigherOrderDemo.recorder) log
          = .ok (log ++ ["Data for ID " ++ fmtInt id])
      ∧ HigherOrderDemo.fetchData 42 (some cb) s = cb "Data for ID 42" s
      ∧ HigherOrderDemo.fetchData 42 (some HigherOrderDemo.recorder) []
          = .ok ["Data for ID 42"]
      ∧ fmtInt 42 = "42" ∧ fmtInt 0 = "0" ∧ fmtInt (-7) = "-7" :=
  ⟨rfl, rfl, rfl, rfl, by decide, by decide, by decide⟩

/-! ## The accumulator closures of `outer` -/

namespace ClosureDemo

theorem call_p (c : ShowClosure) (st : State) : (c.call st).p = st.p := rfl

theorem call_next (c : ShowClosure) (st : State) : (c.call st).next = st.next := rfl

theorem call_cells_self (c : ShowClosure) (st : State) :
    (c.call st).cells c.money = c.newMoney st := by
  simp [ShowClosure.call, println]

theorem call_cells_other (c : ShowClosure) (st : State) (k : Nat) (h : k ≠ c.money) :
    (c.call st).cells k = st.cells k := by
  simp [ShowClosure.call, println, Function.update_noteq h]

theorem call_out (c : ShowClosure) (st : State) :
    (c.call st).out = st.out ++ [fmtInt (c.newMoney st)] := by
  simp [ShowClosure.call, println]

/-- The assignment `money = money + a + p` as one wrapped sum. -/
theorem newMoney_eq (c : ShowClosure) (st : State) :
    c.newMoney st = wrapInt (st.cells c.money + (a + st.p)) := by
  simp only [ShowClosure.newMoney, goAdd, wrapInt_wrapInt_add, add_assoc]

theorem iterate_call_p (c : ShowClosure) (n : Nat) (st : State) :
    ((c.call)^[n] st).p = st.p := by
  induction n with
  | zero => rfl
  | succ n ih => rw [Function.iterate_succ_apply', call_p, ih]

/-- Closed form of the captured `money` after `n + 1` invocations. -/
theorem iterate_call_cells (c : ShowClosure) (n : Nat) (st : State) :
    ((c.call)^[n + 1] st).cells c.money
      = wrapInt (st.cells c.money + ((n : Int) + 1) * (a + st.p)) := by
  induction n with
  | zero => simp [call_cells_self, newMoney_eq]
  | succ n ih =>
    rw [Function.iterate_succ_apply', call_cells_self, newMoney_eq, ih, iterate_call_p,
      wrapInt_wrapInt_add]
    congr 1
    push_cast
    ring

/-- One more invocation prints one more line: the new value of `money`. -/
theorem iterate_call_out (c : ShowClosure) (n : Nat) (st : State) :
    ((c.call)^[n + 1] st).out
      = ((c.call)^[n] st).out
          ++ [fmtInt (wrapInt (st.cells c.money + ((n : Int) + 1) * (a + st.p)))] := by
  rw [← iterate_call_cells, Function.iterate_succ_apply', call_out, call_cells_self]

theorem outer_p (st : State) : (outer st).2.p = st.p := rfl

theorem outer_money (st : State) : (outer st).1.money = st.next := rfl

theorem outer_next (st : State) : (outer st).2.next = st.next + 1 := rfl

theorem outer_cells_self (st : State) : (outer st).2.cells (outer st).1.money = 100 := by
  simp [outer, println]

theorem outer_cells_other (st : State) (k : Nat) (h : k ≠ st.next) :
    (outer st).2.cells k = st.cells k := by
  simp [outer, println, Function.update_noteq h]

end ClosureDemo

/-- C1 (as amended): for every `n ≥ 1`, in a run where `p` holds 100, the
`n`-th invocation of a closure returned by one call of `outer` sets its
captured `money` to, and prints, `100 + 110 * n` reduced into the 64-bit range
of Go's `int`; that is exactly `100 + 110 * n` whenever `100 + 110 * n` does
not exceed the largest `int`.  The first invocation prints 210, the second 320. -/
theorem outer_nth_invocation (st : ClosureDemo.State) (n : Nat)
    (hp : st.p = 100) (hn : 1 ≤ n) :
    ((ClosureDemo.outer st).1.call^[n] (ClosureDemo.outer st).2).cells
          (ClosureDemo.outer st).1.money = wrapInt (100 + 110 * (n : Int))
      ∧ ((ClosureDemo.outer st).1.call^[n] (ClosureDemo.outer st).2).out
          = ((ClosureDemo.outer st).1.call^[n - 1] (ClosureDemo.outer st).2).out
              ++ [fmtInt (wrapInt (100 + 110 * (n : Int)))]
      ∧ (100 + 110 * (n : Int) ≤ maxInt →
          ((ClosureDemo.outer st).1.call^[n] (ClosureDemo.outer st).2).cells
              (ClosureDemo.outer st).1.money = 100 + 110 * (n : Int)
            ∧ ((ClosureDemo.outer st).1.call^[n] (ClosureDemo.outer st).2).out
              = ((ClosureDemo.outer st).1.call^[n - 1] (ClosureDemo.outer st).2).out
                  ++ [fmtInt (100 + 110 * (n : Int))])
      ∧ ((ClosureDemo.outer st).1.call^[1] (ClosureDemo.outer st).2).out
          = (ClosureDemo.outer st).2.out ++ ["210"]
      ∧ ((ClosureDemo.outer st).1.call^[2] (ClosureDemo.outer st).2).out
          = (ClosureDemo.outer st).2.out ++ ["210", "320"] := by
  obtain ⟨m, rfl⟩ : ∃ m, n = m + 1 := ⟨n - 1, by omega⟩
  have hval : ∀ k : Nat, (ClosureDemo.outer st).2.cells (ClosureDemo.outer st).1.money
      + ((k : Int) + 1) * (ClosureDemo.a + (ClosureDemo.outer st).2.p)
        = 100 + 110 * ((k + 1 : Nat) : Int) := by
    intro k
    rw [ClosureDemo.outer_cells_self, ClosureDemo.outer_p, hp, ClosureDemo.a]
    push_cast
    ring
  have hcell := ClosureDemo.iterate_call_cells (ClosureDemo.outer st).1 m (ClosureDemo.outer st).2
  have hout := ClosureDemo.iterate_call_out (ClosureDemo.outer st).1 m (ClosureDemo.outer st).2
  rw [hval m] at hcell hout
  have h1 := ClosureDemo.iterate_call_out (ClosureDemo.outer st).1 0 (ClosureDemo.outer st).2
  have h2 := ClosureDemo.iterate_call_out (ClosureDemo.outer st).1 1 (ClosureDemo.outer st).2
  rw [hval 0] at h1
  rw [hval 1] at h2
  have e1 : fmtInt (wrapInt (100 + 110 * ((0 + 1 : Nat) : Int))) = "210" := by decide
  have e2 : fmtInt (wrapInt (100 + 110 * ((1 + 1 : Nat) : Int))) = "320" := by decide
  rw [e1] at h1
  rw [e2, h1] at h2
  refine ⟨hcell, by simpa using hout, ?_, h1, by simpa using h2⟩
  intro hmax
  have hmin : minInt ≤ 100 + 110 * ((m + 1 : Nat) : Int) := by
    have : minInt = -9223372036854775808 := by unfold minInt; norm_num
    rw [this]
    omega
  have hw := wrapInt_of_inRange _ hmin hmax
  rw [hw] at hcell hout
  exact ⟨hcell, by simpa using hout⟩

theorem outer_nth_invocation_witness :
    (ClosureDemo.init ClosureDemo.initial).p = 100 ∧ 1 ≤ 3
      ∧ ((ClosureDemo.outer (ClosureDemo.init ClosureDemo.initial)).1.call^[3]
            (ClosureDemo.outer (ClosureDemo.init ClosureDemo.initial)).2).cells
          (ClosureDemo.outer (ClosureDemo.init ClosureDemo.initial)).1.money
          = wrapInt (100 + 110 * ((3 : Nat) : Int))
      ∧ wrapInt (100 + 110 * ((3 : Nat) : Int)) = 430
      ∧ 100 + 110 * ((3 : Nat) : Int) ≤ maxInt
      ∧ ((ClosureDemo.outer (ClosureDemo.init ClosureDemo.initial)).1.call^[3]
            (ClosureDemo.outer (ClosureDemo.init ClosureDemo.initial)).2).cells
          (ClosureDemo.outer (ClosureDemo.init ClosureDemo.initial)).1.money
          = 100 + 110 * ((3 : Nat) : Int) :=
  ⟨rfl, by decide,
   (outer_nth_invocation (ClosureDemo.init ClosureDemo.initial) 3 rfl (by decide)).1,
   by decide, by decide,
   ((outer_nth_invocation (ClosureDemo.init ClosureDemo.initial) 3 rfl (by decide)).2.2.1
      (by decide)).1⟩

/-- C1 fails as stated once `100 + 110 * n` exceeds the largest `int`: at the
start of the program `p` is 100, and the 83848836698679780-th invocation of the
closure sets `money` to -9223372036854775716, not to
`100 + 110 * 83848836698679780 = 9223372036854775900`. -/
theorem outer_nth_invocation_overflow :
    (ClosureDemo.init ClosureDemo.initial).p = 100
      ∧ ((ClosureDemo.outer (ClosureDemo.init ClosureDemo.initial)).1.call^[83848836698679780]
            (ClosureDemo.outer (ClosureDemo.init ClosureDemo.initial)).2).cells
          (ClosureDemo.outer (ClosureDemo.init ClosureDemo.initial)).1.money
          = -9223372036854775716
      ∧ ((ClosureDemo.outer (ClosureDemo.init ClosureDemo.initial)).1.call^[83848836698679780]
            (ClosureDemo.outer (ClosureDemo.init ClosureDemo.initial)).2).cells
          (ClosureDemo.outer (ClosureDemo.init ClosureDemo.initial)).1.money
          ≠ 100 + 110 * 83848836698679780 := by
  have h := ClosureDemo.iterate_call_cells
    (ClosureDemo.outer (ClosureDemo.init ClosureDemo.initial)).1 83848836698679779
    (ClosureDemo.outer (ClosureDemo.init ClosureDemo.initial)).2
  rw [ClosureDemo.outer_cells_self, ClosureDemo.outer_p] at h
  have hv : wrapInt (100 + (((83848836698679779 : Nat) : Int) + 1)
      * (ClosureDemo.a + (ClosureDemo.init ClosureDemo.initial).p))
        = -9223372036854775716 := by decide
  rw [hv] at h
  have hn : (83848836698679780 : Nat) = 83848836698679779 + 1 := by decide
  rw [hn]
  refine ⟨rfl, h, ?_⟩
  rw [h]
  decide

namespace ClosureDemo

theorem iterate_call_next (c : ShowClosure) (n : Nat) (st : State) :
    ((c.call)^[n] st).next = st.next := by
  induction n with
  | zero => rfl
  | succ n ih => rw [Function.iterate_succ_apply', call_next, ih]

theorem ne_of_money_ne {c d : ShowClosure} (h : d ≠ c) : d.money ≠ c.money := by
  intro hm
  apply h
  cases c
  cases d
  simp_all

theorem newMoney_congr (c : ShowClosure) (st st' : State)
    (hp : st.p = st'.p) (hc : st.cells c.money = st'.cells c.money) :
    c.newMoney st = c.newMoney st' := by
  simp only [ShowClosure.newMoney, hp, hc]

/-- What a closure yields in a schedule is what it yields when all invocations
of the other closures are dropped, from any state that agrees on `p` and on
the closure's own cell. -/
theorem yieldsOf_trace_filter (c : ShowClosure) (sched : List ShowClosure) :
    ∀ st st' : State, st.p = st'.p → st.cells c.money = st'.cells c.money →
      yieldsOf c (trace sched st)
        = (trace (sched.filter (fun d => decide (d = c))) st').map Prod.snd := by
  induction sched with
  | nil => intro st st' _ _; rfl
  | cons d rest ih =>
    intro st st' hp hc
    by_cases hd : d = c
    · subst hd
      have hstep := ih (d.call st) (d.call st') (by simp [call_p, hp])
        (by rw [call_cells_self, call_cells_self]; exact newMoney_congr d st st' hp hc)
      simp only [yieldsOf] at hstep
      simp [yieldsOf, trace, hstep, newMoney_congr d st st' hp hc]
    · have hstep := ih (d.call st) st' (by simp [call_p, hp])
        (by rw [call_cells_other d st c.money (ne_of_money_ne (Ne.symm hd))]; exact hc)
      simp only [yieldsOf] at hstep
      simp [yieldsOf, trace, hd, hstep]

/-- The final value of a closure's cell after a schedule is the one reached
when all invocations of the other closures are dropped. -/
theorem runSchedule_cells_filter (c : ShowClosure) (sched : List ShowClosure) :
    ∀ st st' : State, st.p = st'.p → st.cells c.money = st'.cells c.money →
      (runSchedule sched st).cells c.money
        = (runSchedule (sched.filter (fun d => decide (d = c))) st').cells c.money := by
  induction sched with
  | nil => intro st st' _ hc; exact hc
  | cons d rest ih =>
    intro st st' hp hc
    by_cases hd : d = c
    · subst hd
      have hstep := ih (d.call st) (d.call st') (by simp [call_p, hp])
        (by rw [call_cells_self, call_cells_self]; exact newMoney_congr d st st' hp hc)
      simpa [runSchedule] using hstep
    · have hstep := ih (d.call st) st' (by simp [call_p, hp])
        (by rw [call_cells_other d st c.money (ne_of_money_ne (Ne.symm hd))]; exact hc)
      simpa [runSchedule, hd] using hstep

/-- Closed form of the values a closure yields when invoked `j` times in a row. -/
theorem trace_replicate (c : ShowClosure) (j : Nat) :
    ∀ st : State, (trace (List.replicate j c) st).map Prod.snd
      = (List.range j).map
          (fun i : Nat => wrapInt (st.cells c.money + ((i : Int) + 1) * (a + st.p))) := by
  induction j with
  | zero => intro st; rfl
  | succ j ih =>
    intro st
    rw [List.replicate_succ, trace, List.map_cons, ih (c.call st), List.range_succ_eq_map,
      List.map_cons, List.map_map, call_cells_self, call_p, newMoney_eq]
    congr 1
    · simp
    · apply List.map_congr_left
      intro i _
      simp only [Function.comp_apply, wrapInt_wrapInt_add]
      congr 1
      push_cast
      ring

theorem interleave_filter_first (c d : ShowClosure) (h : c ≠ d) (sched : List Bool) :
    (interleave c d sched).filter (fun e => decide (e = c))
      = List.replicate (sched.count true) c := by
  induction sched with
  | nil => rfl
  | cons b rest ih =>
    simp only [interleave] at ih
    cases b <;> simp [interleave, ih, h, Ne.symm h, List.replicate_succ]

theorem interleave_filter_second (c d : ShowClosure) (h : c ≠ d) (sched : List Bool) :
    (interleave c d sched).filter (fun e => decide (e = d))
      = List.replicate (sched.count false) d := by
  induction sched with
  | nil => rfl
  | cons b rest ih =>
    simp only [interleave] at ih
    cases b <;> simp [interleave, ih, h, Ne.symm h, List.replicate_succ]

theorem twoClosures_ne (k : Nat) (st : State) :
    (twoClosures k st).1 ≠ (twoClosures k st).2.1 := by
  intro h
  have hm := congrArg ShowClosure.money h
  simp only [twoClosures, outer_money, iterate_call_next, outer_next] at hm
  omega

theorem twoClosures_p (k : Nat) (st : State) : (twoClosures k st).2.2.p = st.p := by
  simp only [twoClosures, outer_p, iterate_call_p]

theorem twoClosures_cells_second (k : Nat) (st : State) :
    (twoClosures k st).2.2.cells (twoClosures k st).2.1.money = 100 := by
  simp only [twoClosures, outer_cells_self]

end ClosureDemo

/-- C2: for two closures obtained from two separate calls of `outer` (the first
possibly invoked `k` times before the second call) and every interleaved
sequence of their invocations, the values the second closure yields are those
it yields when the first is never invoked, its `j`-th yield being determined by
`j` alone (`100 + j * (a + p)` in `int` arithmetic), and the values the first
closure yields are those it yields when the second is never invoked; the same
holds for the final contents of their cells.  The two closures own different
cells, although each cell starts at 100. -/
theorem accumulators_isolated (k : Nat) (st s : ClosureDemo.State)
    (incr1 incr2 : ClosureDemo.ShowClosure) (sched : List Bool)
    (h : ClosureDemo.twoClosures k st = (incr1, incr2, s)) :
    incr1 ≠ incr2
      ∧ (ClosureDemo.outer st).2.cells incr1.money = 100
      ∧ s.cells incr2.money = 100
      ∧ ClosureDemo.yieldsOf incr2 (ClosureDemo.trace (ClosureDemo.interleave incr1 incr2 sched) s)
          = (ClosureDemo.trace (List.replicate (sched.count false) incr2) s).map Prod.snd
      ∧ ClosureDemo.yieldsOf incr1 (ClosureDemo.trace (ClosureDemo.interleave incr1 incr2 sched) s)
          = (ClosureDemo.trace (List.replicate (sched.count true) incr1) s).map Prod.snd
      ∧ ClosureDemo.yieldsOf incr2 (ClosureDemo.trace (ClosureDemo.interleave incr1 incr2 sched) s)
          = (List.range (sched.count false)).map
              (fun j : Nat => wrapInt (100 + ((j : Int) + 1) * (ClosureDemo.a + st.p)))
      ∧ (ClosureDemo.runSchedule (ClosureDemo.interleave incr1 incr2 sched) s).cells incr2.money
          = (ClosureDemo.runSchedule (List.replicate (sched.count false) incr2) s).cells
              incr2.money
      ∧ (ClosureDemo.runSchedule (ClosureDemo.interleave incr1 incr2 sched) s).cells incr1.money
          = (ClosureDemo.runSchedule (List.replicate (sched.count true) incr1) s).cells
              incr1.money := by
  have e1 : incr1 = (ClosureDemo.twoClosures k st).1 := by rw [h]
  have e2 : incr2 = (ClosureDemo.twoClosures k st).2.1 := by rw [h]
  have e3 : s = (ClosureDemo.twoClosures k st).2.2 := by rw [h]
  have hne : incr1 ≠ incr2 := by
    rw [e1, e2]
    exact ClosureDemo.twoClosures_ne k st
  have hp : s.p = st.p := by
    rw [e3]
    exact ClosureDemo.twoClosures_p k st
  have hc2 : s.cells incr2.money = 100 := by
    rw [e2, e3]
    exact ClosureDemo.twoClosures_cells_second k st
  have hy2 := ClosureDemo.yieldsOf_trace_filter incr2
    (ClosureDemo.interleave incr1 incr2 sched) s s rfl rfl
  rw [ClosureDemo.interleave_filter_second incr1 incr2 hne sched] at hy2
  have hy1 := ClosureDemo.yieldsOf_trace_filter incr1
    (ClosureDemo.interleave incr1 incr2 sched) s s rfl rfl
  rw [ClosureDemo.interleave_filter_first incr1 incr2 hne sched] at hy1
  have hr2 := ClosureDemo.runSchedule_cells_filter incr2
    (ClosureDemo.interleave incr1 incr2 sched) s s rfl rfl
  rw [ClosureDemo.interleave_filter_second incr1 incr2 hne sched] at hr2
  have hr1 := ClosureDemo.runSchedule_cells_filter incr1
    (ClosureDemo.interleave incr1 incr2 sched) s s rfl rfl
  rw [ClosureDemo.interleave_filter_first incr1 incr2 hne sched] at hr1
  refine ⟨hne, ?_, hc2, hy2, hy1, ?_, hr2, hr1⟩
  · rw [e1]
    exact ClosureDemo.outer_cells_self st
  · rw [hy2, ClosureDemo.trace_replicate, hc2, hp]

theorem accumulators_isolated_witness :
    ClosureDemo.twoClosures 2 (ClosureDemo.init ClosureDemo.initial)
        = ((ClosureDemo.twoClosures 2 (ClosureDemo.init ClosureDemo.initial)).1,
           (ClosureDemo.twoClosures 2 (ClosureDemo.init ClosureDemo.initial)).2.1,
           (ClosureDemo.twoClosures 2 (ClosureDemo.init ClosureDemo.initial)).2.2)
      ∧ ClosureDemo.yieldsOf (ClosureDemo.twoClosures 2 (ClosureDemo.init ClosureDemo.initial)).2.1
          (ClosureDemo.trace
            (ClosureDemo.interleave
              (ClosureDemo.twoClosures 2 (ClosureDemo.init ClosureDemo.initial)).1
              (ClosureDemo.twoClosures 2 (ClosureDemo.init ClosureDemo.initial)).2.1
              [true, false, true, true, false])
            (ClosureDemo.twoClosures 2 (ClosureDemo.init ClosureDemo.initial)).2.2)
          = (List.range ([true, false, true, true, false].count false)).map
              (fun j : Nat => wrapInt (100 + ((j : Int) + 1)
                * (ClosureDemo.a + (ClosureDemo.init ClosureDemo.initial).p)))
      ∧ (List.range ([true, false, true, true, false].count false)).map
              (fun j : Nat => wrapInt (100 + ((j : Int) + 1)
                * (ClosureDemo.a + (ClosureDemo.init ClosureDemo.initial).p)))
          = [210, 320] :=
  ⟨rfl,
   (accumulators_isolated 2 (ClosureDemo.init ClosureDemo.initial) _ _ _
      [true, false, true, true, false] rfl).2.2.2.2.2.1,
   by decide⟩

/-- C8: invoking a closure returned by `outer` changes only the `money` cell it
captured: in every program state, after the invocation the package variable
`p` holds what it held before (100 throughout a run), the constant `a` is 10,
no cell is allocated, and the cell of every other closure is unchanged. -/
theorem call_frame (st : ClosureDemo.State) (c d : ClosureDemo.ShowClosure) (h : d ≠ c) :
    (c.call st).p = st.p
      ∧ ClosureDemo.a = 10
      ∧ (c.call st).cells d.money = st.cells d.money
      ∧ (c.call st).next = st.next
      ∧ (c.call st).cells c.money = goAdd (goAdd (st.cells c.money) ClosureDemo.a) st.p
      ∧ (c.call st).out = st.out ++ [fmtInt ((c.call st).cells c.money)]
      ∧ ClosureDemo.initial.p = 100 := by
  refine ⟨rfl, rfl, ?_, rfl, ?_, ?_, rfl⟩
  · exact ClosureDemo.call_cells_other c st d.money (ClosureDemo.ne_of_money_ne h)
  · rw [ClosureDemo.call_cells_self]
    rfl
  · rw [ClosureDemo.call_out, ClosureDemo.call_cells_self]

theorem call_frame_witness :
    (ClosureDemo.twoClosures 0 ClosureDemo.initial).2.1
        ≠ (ClosureDemo.twoClosures 0 ClosureDemo.initial).1
      ∧ (((ClosureDemo.twoClosures 0 ClosureDemo.initial).1.call
            (ClosureDemo.twoClosures 0 ClosureDemo.initial).2.2).cells
          (ClosureDemo.twoClosures 0 ClosureDemo.initial).2.1.money
          = (ClosureDemo.twoClosures 0 ClosureDemo.initial).2.2.cells
              (ClosureDemo.twoClosures 0 ClosureDemo.initial).2.1.money)
      ∧ ((ClosureDemo.twoClosures 0 ClosureDemo.initial).1.call
            (ClosureDemo.twoClosures 0 ClosureDemo.initial).2.2).cells
          (ClosureDemo.twoClosures 0 ClosureDemo.initial).1.money = 210 :=
  ⟨by decide,
   (call_frame (ClosureDemo.twoClosures 0 ClosureDemo.initial).2.2
      (ClosureDemo.twoClosures 0 ClosureDemo.initial).1
      (ClosureDemo.twoClosures 0 ClosureDemo.initial).2.1 (by decide)).2.2.1,
   by decide⟩

/-- The whole output of the closure program: `init`, then `main`. -/
theorem closure_program_output :
    (ClosureDemo.main (ClosureDemo.init ClosureDemo.initial)).out
      = ["_______Bank_________", "30", "210", "320", "30", "210", "320"] := by
  decide
